import Mathlib

/-
  Verification development for the micro-sre analysis pipeline.

  Shallow embedding of:
  - internal/agent/agent.go   (extractJSON, parseTimestamp, extractAndParseJSON,
                               parseAnalysisResponse)
  - internal/api/handlers.go  (ReceiveAlertManagerWebhook batch fan-out)
  - internal/models/alert.go  (Alert label accessors)
  - internal/collectors/kubernetes.go (GetPodInfo)

  Conventions:
  - Go strings are modelled as `String` / `List Char`.
  - Go `nil` slices versus allocated empty slices are distinguished as
    `Option (List _)`: `none` is a nil slice, `some []` an allocated empty one.
  - External calls (Kubernetes API, LLM client, json/time stdlib) are modelled
    as explicit parameters or as faithful Lean models of the stdlib semantics
    the code relies on.
-/

set_option maxRecDepth 40000

namespace MicroSre

/-! ## Characters used by the scanner (named to keep literals readable) -/

def lbraceC : Char := Char.ofNat 123

def rbraceC : Char := Char.ofNat 125

def lbrackC : Char := Char.ofNat 91

def rbrackC : Char := Char.ofNat 93

def backslashC : Char := Char.ofNat 92

def quoteC : Char := Char.ofNat 34

def colonC : Char := Char.ofNat 58

def commaC : Char := Char.ofNat 44

def spaceC : Char := Char.ofNat 32

def tabC : Char := Char.ofNat 9

def nlC : Char := Char.ofNat 10

def crC : Char := Char.ofNat 13

/-! ## extractJSON (agent.go lines 332-377)

The Go loop carries three pieces of mutable state: `braceCount` (int),
`inString` (bool), `escaped` (bool).  `ScanState` packages them and
`scanStep` is the per-character state update of the loop body, with the
branches in exactly the order the Go code tests them. -/

structure ScanState where
  braceCount : Int
  inString : Bool
  escaped : Bool
deriving DecidableEq, Repr

def scanInit : ScanState := { braceCount := 0, inString := false, escaped := false }

/-- Per-character state update of the loop in `extractJSON` (agent.go 344-374).
Note: the `char == '\\'` test comes before any `inString` test, so a backslash
sets `escaped` outside strings as well. -/
def scanStep (st : ScanState) (c : Char) : ScanState :=
  if st.escaped then { st with escaped := false }
  else if c = backslashC then { st with escaped := true }
  else if c = quoteC then { st with inString := !st.inString }
  else if st.inString then st
  else if c = lbraceC then { st with braceCount := st.braceCount + 1 }
  else if c = rbraceC then { st with braceCount := st.braceCount - 1 }
  else st

/-- State after scanning a list of characters. -/
def foldScan (st : ScanState) (cs : List Char) : ScanState :=
  cs.foldl scanStep st

/-- The scan loop of `extractJSON`: returns the length (in characters,
counted from the position of the first brace) of the span ending at the
closing brace that brings `braceCount` to zero, or `none` if the text is
exhausted first.  Mirrors agent.go 344-374: the function is called on the
suffix of the text starting at the first brace, with `braceCount = 0`. -/
def findMatch (st : ScanState) : List Char → Option Nat
  | [] => none
  | c :: cs =>
    if st.escaped then (findMatch { st with escaped := false } cs).map (· + 1)
    else if c = backslashC then (findMatch { st with escaped := true } cs).map (· + 1)
    else if c = quoteC then (findMatch { st with inString := !st.inString } cs).map (· + 1)
    else if st.inString then (findMatch st cs).map (· + 1)
    else if c = lbraceC then
      (findMatch { st with braceCount := st.braceCount + 1 } cs).map (· + 1)
    else if c = rbraceC then
      if st.braceCount - 1 = 0 then some 1
      else (findMatch { st with braceCount := st.braceCount - 1 } cs).map (· + 1)
    else (findMatch st cs).map (· + 1)

/-- `extractJSON` on character lists (agent.go 332-377).  Drops everything
before the first brace (`strings.Index(text, "{")`), then scans for the
matching close; Go returns `""` both when there is no opening brace and when
the scan exhausts the text. -/
def extractJSONList (text : List Char) : List Char :=
  let rest := text.dropWhile (fun c => c ≠ lbraceC)
  match findMatch scanInit rest with
  | some n => rest.take n
  | none => []

def extractJSON (s : String) : String :=
  String.mk (extractJSONList s.data)

/-! ### Spec-side scanner for comparison (claim C4)

Modelled from the spec: §4.2 rules 1-5, where rule 2 sets the escape-pending
flag only "while inside a string".  Used solely to compare the spec's claimed
escape behaviour against the code's. -/

/-- Modelled from the spec: per-character update following §4.2 rules 1-5
verbatim; a backslash sets escape-pending only when inside a string. -/
def specScanStep (st : ScanState) (c : Char) : ScanState :=
  if st.escaped then { st with escaped := false }
  else if c = backslashC ∧ st.inString then { st with escaped := true }
  else if c = quoteC then { st with inString := !st.inString }
  else if st.inString then st
  else if c = lbraceC then { st with braceCount := st.braceCount + 1 }
  else if c = rbraceC then { st with braceCount := st.braceCount - 1 }
  else st

/-- Modelled from the spec: the scan loop under §4.2's rules. -/
def specFindMatch (st : ScanState) : List Char → Option Nat
  | [] => none
  | c :: cs =>
    if st.escaped then (specFindMatch { st with escaped := false } cs).map (· + 1)
    else if c = backslashC ∧ st.inString then
      (specFindMatch { st with escaped := true } cs).map (· + 1)
    else if c = quoteC then (specFindMatch { st with inString := !st.inString } cs).map (· + 1)
    else if st.inString then (specFindMatch st cs).map (· + 1)
    else if c = lbraceC then
      (specFindMatch { st with braceCount := st.braceCount + 1 } cs).map (· + 1)
    else if c = rbraceC then
      if st.braceCount - 1 = 0 then some 1
      else (specFindMatch { st with braceCount := st.braceCount - 1 } cs).map (· + 1)
    else (specFindMatch st cs).map (· + 1)

/-- Modelled from the spec: extraction under §4.2's rules. -/
def specExtractJSONList (text : List Char) : List Char :=
  let rest := text.dropWhile (fun c => c ≠ lbraceC)
  match specFindMatch scanInit rest with
  | some n => rest.take n
  | none => []

/-! ## parseTimestamp (agent.go 379-397)

The Go code calls `time.Parse(format, ts)` for the five fixed layouts
`time.RFC3339`, `time.RFC3339Nano`, `"2006-01-02T15:04:05"`,
`"2006-01-02 15:04:05"`, `"15:04:05"` in that order and returns the first
success, falling back to `time.Now()`.

`GoTime` is the broken-down representation of the `time.Time` such a parse
produces (Go fills missing date components with year 0, January 1, UTC).
The individual layout models below mirror the relevant behaviour of Go's
`time.Parse` for these layouts: "15" accepts one or two digits, "04"/"05"
and the date components are fixed-width, component ranges are validated
(month 1-12, day against the month's length with leap years, hour < 24,
minute/second < 60), an unsolicited fractional second after the seconds is
consumed (at most 9 digits), and the RFC-3339 zone is `Z` or `±hh:mm`. -/

structure GoTime where
  year : Int
  month : Nat
  day : Nat
  hour : Nat
  minute : Nat
  second : Nat
  nanosecond : Nat
  offsetSeconds : Int
deriving DecidableEq, Repr

def digitVal (c : Char) : Option Nat :=
  if c.isDigit then some (c.toNat - 48) else none

def parseFixed2 : List Char → Option (Nat × List Char)
  | a :: b :: rest =>
    match digitVal a, digitVal b with
    | some x, some y => some (10 * x + y, rest)
    | _, _ => none
  | _ => none

/-- Go `getnum` with `fixed = false`: one or two digits. -/
def parseNum12 : List Char → Option (Nat × List Char)
  | [] => none
  | a :: rest =>
    match digitVal a with
    | none => none
    | some x =>
      match rest with
      | b :: rest2 =>
        match digitVal b with
        | some y => some (10 * x + y, rest2)
        | none => some (x, rest)
      | [] => some (x, [])

def parseYear4 : List Char → Option (Nat × List Char)
  | a :: b :: c :: d :: rest =>
    match digitVal a, digitVal b, digitVal c, digitVal d with
    | some w, some x, some y, some z => some (1000 * w + 100 * x + 10 * y + z, rest)
    | _, _, _, _ => none
  | _ => none

def expectChar (c : Char) : List Char → Option (List Char)
  | [] => none
  | a :: rest => if a = c then some rest else none

def isLeapYear (y : Int) : Bool :=
  (y % 4 = 0 && y % 100 ≠ 0) || y % 400 = 0

def daysIn (month : Nat) (year : Int) : Nat :=
  if month = 2 then (if isLeapYear year then 29 else 28)
  else if month = 4 ∨ month = 6 ∨ month = 9 ∨ month = 11 then 30
  else 31

/-- Unsolicited fractional second: Go's `Parse` consumes `.ddd` / `,ddd`
after the seconds even when the layout has no fraction; more than nine
digits is a range error. -/
def parseOptFrac (cs : List Char) : Option (Nat × List Char) :=
  match cs with
  | c :: d :: _ =>
    if (c = Char.ofNat 46 ∨ c = commaC) ∧ (digitVal d).isSome then
      let digits := (cs.drop 1).takeWhile (fun x => (digitVal x).isSome)
      let rest := (cs.drop 1).dropWhile (fun x => (digitVal x).isSome)
      if digits.length > 9 then none
      else
        let v := digits.foldl (fun acc x => 10 * acc + ((digitVal x).getD 0)) 0
        some (v * 10 ^ (9 - digits.length), rest)
    else some (0, cs)
  | _ => some (0, cs)

/-- hour `15` (one or two digits), `:`, minute `04`, `:`, second `05`,
then an optional unsolicited fraction. -/
def parseHMS (cs : List Char) : Option (Nat × Nat × Nat × Nat × List Char) := do
  let (h, r1) ← parseNum12 cs
  let r2 ← expectChar colonC r1
  let (m, r3) ← parseFixed2 r2
  let r4 ← expectChar colonC r3
  let (s, r5) ← parseFixed2 r4
  let (nano, r6) ← parseOptFrac r5
  if h ≤ 23 ∧ m ≤ 59 ∧ s ≤ 59 then some (h, m, s, nano, r6) else none

/-- `2006-01-02` with component validation. -/
def parseDate (cs : List Char) : Option (Int × Nat × Nat × List Char) := do
  let (y, r1) ← parseYear4 cs
  let r2 ← expectChar (Char.ofNat 45) r1
  let (mo, r3) ← parseFixed2 r2
  let r4 ← expectChar (Char.ofNat 45) r3
  let (d, r5) ← parseFixed2 r4
  if 1 ≤ mo ∧ mo ≤ 12 ∧ 1 ≤ d ∧ d ≤ daysIn mo (Int.ofNat y) then
    some (Int.ofNat y, mo, d, r5)
  else none

/-- RFC-3339 zone: `Z` or `±hh:mm`. -/
def parseZone (cs : List Char) : Option (Int × List Char) :=
  match cs with
  | c :: rest =>
    if c = 'Z' then some (0, rest)
    else if c = Char.ofNat 43 ∨ c = Char.ofNat 45 then do
      let (h, r1) ← parseFixed2 rest
      let r2 ← expectChar colonC r1
      let (m, r3) ← parseFixed2 r2
      let off : Int := Int.ofNat (h * 3600 + m * 60)
      some (if c = Char.ofNat 45 then -off else off, r3)
    else none
  | [] => none

/-- Model of Go `time.Parse` with layout `time.RFC3339`. -/
def goParseRFC3339 (cs : List Char) : Option GoTime := do
  let (y, mo, d, r1) ← parseDate cs
  let r2 ← expectChar 'T' r1
  let (h, m, s, nano, r3) ← parseHMS r2
  let (off, r4) ← parseZone r3
  if r4 = [] then some ⟨y, mo, d, h, m, s, nano, off⟩ else none

/-- Model of Go `time.Parse` with layout `time.RFC3339Nano` (the explicit
`.999999999` fraction is optional, so it accepts the same strings as the
plain RFC-3339 layout once unsolicited fractions are accounted for). -/
def goParseRFC3339Nano (cs : List Char) : Option GoTime := do
  let (y, mo, d, r1) ← parseDate cs
  let r2 ← expectChar 'T' r1
  let (h, m, s, nano, r3) ← parseHMS r2
  let (off, r4) ← parseZone r3
  if r4 = [] then some ⟨y, mo, d, h, m, s, nano, off⟩ else none

/-- Model of Go `time.Parse` with layout `"2006-01-02T15:04:05"`. -/
def goParseDateTimeT (cs : List Char) : Option GoTime := do
  let (y, mo, d, r1) ← parseDate cs
  let r2 ← expectChar 'T' r1
  let (h, m, s, nano, r3) ← parseHMS r2
  if r3 = [] then some ⟨y, mo, d, h, m, s, nano, 0⟩ else none

/-- Model of Go `time.Parse` with layout `"2006-01-02 15:04:05"`. -/
def goParseDateTimeSpace (cs : List Char) : Option GoTime := do
  let (y, mo, d, r1) ← parseDate cs
  let r2 ← expectChar spaceC r1
  let (h, m, s, nano, r3) ← parseHMS r2
  if r3 = [] then some ⟨y, mo, d, h, m, s, nano, 0⟩ else none

/-- Model of Go `time.Parse` with layout `"15:04:05"`; missing date
components default to year 0, January 1. -/
def goParseBareTime (cs : List Char) : Option GoTime := do
  let (h, m, s, nano, r1) ← parseHMS cs
  if r1 = [] then some ⟨0, 1, 1, h, m, s, nano, 0⟩ else none

/-- The five layouts in the order agent.go 381-387 lists them. -/
def parseTimestampFormats : List (List Char → Option GoTime) :=
  [goParseRFC3339, goParseRFC3339Nano, goParseDateTimeT, goParseDateTimeSpace, goParseBareTime]

/-- First successful parse among an ordered list of layouts. -/
def firstParse : List (List Char → Option GoTime) → List Char → Option GoTime
  | [], _ => none
  | f :: fs, cs =>
    match f cs with
    | some t => some t
    | none => firstParse fs cs

/-- `parseTimestamp` (agent.go 379-397).  `now` stands for the value
`time.Now()` would return at the moment of the call. -/
def parseTimestamp (ts : String) (now : GoTime) : GoTime :=
  (firstParse parseTimestampFormats ts.data).getD now

/-! ## Model of `encoding/json` as used by `extractAndParseJSON`

agent.go 268 calls `json.Unmarshal` on the extracted span, decoding into an
anonymous struct.  The model has two layers: a JSON syntax parser
(`jsonParseTop`, Go's grammar: strict numbers, the four whitespace
characters, string escapes) and a decoder into the struct shape
(`unmarshalResponse`, Go semantics: unknown fields ignored, field names
matched exactly or ASCII-case-insensitively, `null` leaves a field
untouched, a type mismatch anywhere is an error, duplicate keys decode in
order with later values merging over earlier ones).  `agent.go` only
distinguishes `err == nil` from `err != nil`, which the `Option` captures. -/

inductive Json where
  | null : Json
  | bool (b : Bool) : Json
  | num (s : String) : Json
  | str (s : String) : Json
  | arr (elems : List Json) : Json
  | obj (members : List (String × Json)) : Json

def isJsonWs (c : Char) : Bool :=
  c = spaceC || c = tabC || c = nlC || c = crC

def skipWs (cs : List Char) : List Char :=
  cs.dropWhile isJsonWs

def hexVal (c : Char) : Option Nat :=
  if c.isDigit then some (c.toNat - 48)
  else if 97 ≤ c.toNat ∧ c.toNat ≤ 102 then some (c.toNat - 87)
  else if 65 ≤ c.toNat ∧ c.toNat ≤ 70 then some (c.toNat - 55)
  else none

/-- Decode one `\uXXXX` code unit; Go replaces unpaired surrogates with
U+FFFD (surrogate pairing is not modelled — no claim exercises it). -/
def uniChar (n : Nat) : Char :=
  if 0xD800 ≤ n ∧ n < 0xE000 then Char.ofNat 0xFFFD else Char.ofNat n

/-- Scan a JSON string body after the opening quote; returns the decoded
string and the rest after the closing quote.  Control characters below
0x20 must be escaped. -/
def parseJStr : List Char → Option (List Char × List Char)
  | [] => none
  | c :: rest =>
    if c = quoteC then some ([], rest)
    else if c = backslashC then
      match rest with
      | [] => none
      | e :: rest2 =>
        if e = quoteC then (parseJStr rest2).map (fun p => (quoteC :: p.1, p.2))
        else if e = backslashC then (parseJStr rest2).map (fun p => (backslashC :: p.1, p.2))
        else if e = Char.ofNat 47 then (parseJStr rest2).map (fun p => (Char.ofNat 47 :: p.1, p.2))
        else if e = 'b' then (parseJStr rest2).map (fun p => (Char.ofNat 8 :: p.1, p.2))
        else if e = 'f' then (parseJStr rest2).map (fun p => (Char.ofNat 12 :: p.1, p.2))
        else if e = 'n' then (parseJStr rest2).map (fun p => (nlC :: p.1, p.2))
        else if e = 'r' then (parseJStr rest2).map (fun p => (crC :: p.1, p.2))
        else if e = 't' then (parseJStr rest2).map (fun p => (tabC :: p.1, p.2))
        else if e = 'u' then
          match rest2 with
          | h1 :: h2 :: h3 :: h4 :: rest3 =>
            match hexVal h1, hexVal h2, hexVal h3, hexVal h4 with
            | some a, some b, some c2, some d =>
              (parseJStr rest3).map
                (fun p => (uniChar (4096 * a + 256 * b + 16 * c2 + d) :: p.1, p.2))
            | _, _, _, _ => none
          | _ => none
        else none
    else if c.toNat < 32 then none
    else (parseJStr rest).map (fun p => (c :: p.1, p.2))

/-- JSON number grammar: `-? (0 | [1-9][0-9]*) (. [0-9]+)? ([eE][+-]?[0-9]+)?`.
The numeral text is kept verbatim (its numeric value is never used). -/
def parseJNum (cs : List Char) : Option (List Char × List Char) :=
  let (sign, r0) :=
    match cs with
    | c :: rest => if c = Char.ofNat 45 then ([c], rest) else (([] : List Char), cs)
    | [] => ([], cs)
  match r0 with
  | [] => none
  | c :: rest =>
    match digitVal c with
    | none => none
    | some v =>
      let (intPart, r1) :=
        if v = 0 then ([c], rest)
        else (c :: rest.takeWhile (fun x => (digitVal x).isSome),
              rest.dropWhile (fun x => (digitVal x).isSome))
      let (fracPart, r2) :=
        match r1 with
        | p :: d :: _ =>
          if p = Char.ofNat 46 ∧ (digitVal d).isSome then
            (p :: (r1.drop 1).takeWhile (fun x => (digitVal x).isSome),
             (r1.drop 1).dropWhile (fun x => (digitVal x).isSome))
          else (([] : List Char), r1)
        | _ => ([], r1)
      let expo : Option (List Char × List Char) :=
        match r2 with
        | e :: r3 =>
          if e = 'e' ∨ e = 'E' then
            let (es, r4) :=
              match r3 with
              | s :: r5 => if s = Char.ofNat 43 ∨ s = Char.ofNat 45 then ([s], r5) else ([], r3)
              | [] => ([], r3)
            match r4 with
            | d :: _ =>
              if (digitVal d).isSome then
                some (e :: es ++ r4.takeWhile (fun x => (digitVal x).isSome),
                      r4.dropWhile (fun x => (digitVal x).isSome))
              else none
            | [] => none
          else some ([], r2)
        | [] => some ([], r2)
      match expo with
      | none => none
      | some (ePart, rFinal) => some (sign ++ intPart ++ fracPart ++ ePart, rFinal)

mutual

/-- Parse one JSON value (leading whitespace allowed); fuel bounds the
nesting depth and is instantiated with the input length. -/
def parseJValue : Nat → List Char → Option (Json × List Char)
  | 0, _ => none
  | fuel + 1, cs =>
    match skipWs cs with
    | [] => none
    | c :: rest =>
      if c = quoteC then
        (parseJStr rest).map (fun p => (Json.str (String.mk p.1), p.2))
      else if c = lbraceC then
        match skipWs rest with
        | d :: rest2 =>
          if d = rbraceC then some (Json.obj [], rest2)
          else parseJMembers fuel (skipWs rest) []
        | [] => none
      else if c = lbrackC then
        match skipWs rest with
        | d :: rest2 =>
          if d = rbrackC then some (Json.arr [], rest2)
          else parseJElems fuel (skipWs rest) []
        | [] => none
      else if c = 't' then
        match rest with
        | r :: u :: e :: rest2 =>
          if r = 'r' ∧ u = 'u' ∧ e = 'e' then some (Json.bool true, rest2) else none
        | _ => none
      else if c = 'f' then
        match rest with
        | a :: l :: s :: e :: rest2 =>
          if a = 'a' ∧ l = 'l' ∧ s = 's' ∧ e = 'e' then some (Json.bool false, rest2) else none
        | _ => none
      else if c = 'n' then
        match rest with
        | u :: l1 :: l2 :: rest2 =>
          if u = 'u' ∧ l1 = 'l' ∧ l2 = 'l' then some (Json.null, rest2) else none
        | _ => none
      else
        (parseJNum (c :: rest)).map (fun p => (Json.num (String.mk p.1), p.2))

/-- Parse the members of an object, positioned at a key (whitespace already
skipped); `acc` holds the members read so far in order. -/
def parseJMembers : Nat → List Char → List (String × Json) → Option (Json × List Char)
  | 0, _, _ => none
  | fuel + 1, cs, acc =>
    match cs with
    | c :: rest =>
      if c = quoteC then
        match parseJStr rest with
        | none => none
        | some (k, r1) =>
          match skipWs r1 with
          | c2 :: r2 =>
            if c2 = colonC then
              match parseJValue fuel r2 with
              | none => none
              | some (v, r3) =>
                match skipWs r3 with
                | c3 :: r4 =>
                  if c3 = commaC then
                    parseJMembers fuel (skipWs r4) (acc ++ [(String.mk k, v)])
                  else if c3 = rbraceC then
                    some (Json.obj (acc ++ [(String.mk k, v)]), r4)
                  else none
                | [] => none
            else none
          | [] => none
      else none
    | [] => none

/-- Parse the elements of an array, positioned at a value. -/
def parseJElems : Nat → List Char → List Json → Option (Json × List Char)
  | 0, _, _ => none
  | fuel + 1, cs, acc =>
    match parseJValue fuel cs with
    | none => none
    | some (v, r1) =>
      match skipWs r1 with
      | c :: r2 =>
        if c = commaC then parseJElems fuel (skipWs r2) (acc ++ [v])
        else if c = rbrackC then some (Json.arr (acc ++ [v]), r2)
        else none
      | [] => none

end

/-- Top-level `json.Unmarshal` syntax: one value, then only whitespace. -/
def jsonParseTop (s : String) : Option Json :=
  match parseJValue (s.length + 1) s.data with
  | some (j, rest) => if skipWs rest = [] then some j else none
  | none => none

/-! ### The anonymous response struct of `extractAndParseJSON` (agent.go 238-266)

`R`-prefixed structures mirror the struct literal; all fields are Go zero
values until decoded.  Timestamps stay strings here — `parseTimestamp` is
applied afterwards (agent.go 288-317). -/

structure RTimelineE where
  timestamp : String
  event : String
  details : String
deriving DecidableEq, Repr

structure RLogE where
  timestamp : String
  line : String
  container : String
deriving DecidableEq, Repr

structure REventE where
  type : String
  reason : String
  message : String
  timestamp : String
deriving DecidableEq, Repr

structure RRecommendationE where
  priority : String
  action : String
  details : String
  command : String
deriving DecidableEq, Repr

structure REvidence where
  logs : List RLogE
  events : List REventE
deriving DecidableEq, Repr

structure RResponse where
  root_cause : String
  confidence : String
  reasoning : String
  timeline : List RTimelineE
  evidence : REvidence
  recommendations : List RRecommendationE
deriving DecidableEq, Repr

def RResponse.zero : RResponse :=
  { root_cause := "", confidence := "", reasoning := "", timeline := [],
    evidence := { logs := [], events := [] }, recommendations := [] }

/-- ASCII-case-insensitive equality, Go's fallback for JSON field names. -/
def asciiFoldEq (a b : String) : Bool :=
  a.data.map Char.toLower = b.data.map Char.toLower

def keyMatches (key tag : String) : Bool :=
  key = tag || asciiFoldEq key tag

/-- Go `Unmarshal` of a JSON value into a string field: a string sets it,
`null` is a no-op, anything else is a type error. -/
def decString (cur : String) : Json → Option String
  | .str s => some s
  | .null => some cur
  | _ => none

def decTimelineEFields (cur : RTimelineE) : List (String × Json) → Option RTimelineE
  | [] => some cur
  | (k, v) :: rest =>
    if keyMatches k "timestamp" then
      (decString cur.timestamp v).bind fun s => decTimelineEFields { cur with timestamp := s } rest
    else if keyMatches k "event" then
      (decString cur.event v).bind fun s => decTimelineEFields { cur with event := s } rest
    else if keyMatches k "details" then
      (decString cur.details v).bind fun s => decTimelineEFields { cur with details := s } rest
    else decTimelineEFields cur rest

def decTimelineE (cur : RTimelineE) : Json → Option RTimelineE
  | .null => some cur
  | .obj kvs => decTimelineEFields cur kvs
  | _ => none

def decLogEFields (cur : RLogE) : List (String × Json) → Option RLogE
  | [] => some cur
  | (k, v) :: rest =>
    if keyMatches k "timestamp" then
      (decString cur.timestamp v).bind fun s => decLogEFields { cur with timestamp := s } rest
    else if keyMatches k "line" then
      (decString cur.line v).bind fun s => decLogEFields { cur with line := s } rest
    else if keyMatches k "container" then
      (decString cur.container v).bind fun s => decLogEFields { cur with container := s } rest
    else decLogEFields cur rest

def decLogE (cur : RLogE) : Json → Option RLogE
  | .null => some cur
  | .obj kvs => decLogEFields cur kvs
  | _ => none

def decEventEFields (cur : REventE) : List (String × Json) → Option REventE
  | [] => some cur
  | (k, v) :: rest =>
    if keyMatches k "type" then
      (decString cur.type v).bind fun s => decEventEFields { cur with type := s } rest
    else if keyMatches k "reason" then
      (decString cur.reason v).bind fun s => decEventEFields { cur with reason := s } rest
    else if keyMatches k "message" then
      (decString cur.message v).bind fun s => decEventEFields { cur with message := s } rest
    else if keyMatches k "timestamp" then
      (decString cur.timestamp v).bind fun s => decEventEFields { cur with timestamp := s } rest
    else decEventEFields cur rest

def decEventE (cur : REventE) : Json → Option REventE
  | .null => some cur
  | .obj kvs => decEventEFields cur kvs
  | _ => none

def decRecommendationEFields (cur : RRecommendationE) :
    List (String × Json) → Option RRecommendationE
  | [] => some cur
  | (k, v) :: rest =>
    if keyMatches k "priority" then
      (decString cur.priority v).bind fun s =>
        decRecommendationEFields { cur with priority := s } rest
    else if keyMatches k "action" then
      (decString cur.action v).bind fun s =>
        decRecommendationEFields { cur with action := s } rest
    else if keyMatches k "details" then
      (decString cur.details v).bind fun s =>
        decRecommendationEFields { cur with details := s } rest
    else if keyMatches k "command" then
      (decString cur.command v).bind fun s =>
        decRecommendationEFields { cur with command := s } rest
    else decRecommendationEFields cur rest

def decRecommendationE (cur : RRecommendationE) : Json → Option RRecommendationE
  | .null => some cur
  | .obj kvs => decRecommendationEFields cur kvs
  | _ => none

def decListWith {α : Type} (decOne : α → Json → Option α) (zero : α) :
    List Json → Option (List α)
  | [] => some []
  | j :: rest =>
    (decOne zero j).bind fun e => (decListWith decOne zero rest).map (fun l => e :: l)

/-- Go `Unmarshal` of a JSON value into a slice field: an array replaces the
slice element-wise, `null` is a no-op, anything else is a type error. -/
def decListField {α : Type} (decOne : α → Json → Option α) (zero : α)
    (cur : List α) : Json → Option (List α)
  | .null => some cur
  | .arr xs => decListWith decOne zero xs
  | _ => none

def decEvidenceFields (cur : REvidence) : List (String × Json) → Option REvidence
  | [] => some cur
  | (k, v) :: rest =>
    if keyMatches k "logs" then
      (decListField decLogE ⟨"", "", ""⟩ cur.logs v).bind fun l =>
        decEvidenceFields { cur with logs := l } rest
    else if keyMatches k "events" then
      (decListField decEventE ⟨"", "", "", ""⟩ cur.events v).bind fun l =>
        decEvidenceFields { cur with events := l } rest
    else decEvidenceFields cur rest

def decEvidence (cur : REvidence) : Json → Option REvidence
  | .null => some cur
  | .obj kvs => decEvidenceFields cur kvs
  | _ => none

def decResponseFields (cur : RResponse) : List (String × Json) → Option RResponse
  | [] => some cur
  | (k, v) :: rest =>
    if keyMatches k "root_cause" then
      (decString cur.root_cause v).bind fun s =>
        decResponseFields { cur with root_cause := s } rest
    else if keyMatches k "confidence" then
      (decString cur.confidence v).bind fun s =>
        decResponseFields { cur with confidence := s } rest
    else if keyMatches k "reasoning" then
      (decString cur.reasoning v).bind fun s =>
        decResponseFields { cur with reasoning := s } rest
    else if keyMatches k "timeline" then
      (decListField decTimelineE ⟨"", "", ""⟩ cur.timeline v).bind fun l =>
        decResponseFields { cur with timeline := l } rest
    else if keyMatches k "evidence" then
      (decEvidence cur.evidence v).bind fun e =>
        decResponseFields { cur with evidence := e } rest
    else if keyMatches k "recommendations" then
      (decListField decRecommendationE ⟨"", "", "", ""⟩ cur.recommendations v).bind fun l =>
        decResponseFields { cur with recommendations := l } rest
    else decResponseFields cur rest

/-- `json.Unmarshal(jsonStr, &response)` of agent.go 268: `none` exactly when
Go would return a non-nil error.  A top-level `null` is a successful no-op
in Go, leaving the zero struct. -/
def unmarshalResponse (s : String) : Option RResponse :=
  match jsonParseTop s with
  | none => none
  | some .null => some RResponse.zero
  | some (.obj kvs) => decResponseFields RResponse.zero kvs
  | some _ => none

/-! ## models.Analysis and the report normalizer (agent.go 197-330)

Go `nil` slices are `none`, allocated slices `some _`: the failure branches
of `extractAndParseJSON` return `models.Analysis{Reasoning: text}`, whose
slice fields are nil, while the success branch allocates empty slices with
`make(..., 0)` / literal `[]...{}` before appending. -/

structure TimelineEvent where
  timestamp : GoTime
  event : String
  details : String
deriving DecidableEq, Repr

structure LogEntry where
  timestamp : GoTime
  line : String
  container : String
deriving DecidableEq, Repr

structure EventEntry where
  type : String
  reason : String
  message : String
  timestamp : GoTime
deriving DecidableEq, Repr

structure Recommendation where
  priority : String
  action : String
  details : String
  command : String
deriving DecidableEq, Repr

structure Evidence where
  logs : Option (List LogEntry)
  events : Option (List EventEntry)
deriving DecidableEq, Repr

structure Analysis where
  rootCause : String
  confidence : String
  reasoning : String
  timeline : Option (List TimelineEvent)
  evidence : Evidence
  recommendations : Option (List Recommendation)
deriving DecidableEq, Repr

/-- The Go zero value of `models.Analysis` (all strings empty, all slices nil). -/
def Analysis.zero : Analysis :=
  { rootCause := "", confidence := "", reasoning := "",
    timeline := none, evidence := { logs := none, events := none },
    recommendations := none }

/-- `extractAndParseJSON` (agent.go 227-330).  `now` is the wall-clock value
`time.Now()` would return during this call (used only by `parseTimestamp`
fallbacks).  Both failure branches return `models.Analysis{Reasoning: text}`. -/
def extractAndParseJSON (text : String) (now : GoTime) : Analysis :=
  let jsonStr := extractJSON text
  if jsonStr = "" then { Analysis.zero with reasoning := text }
  else
    match unmarshalResponse jsonStr with
    | none => { Analysis.zero with reasoning := text }
    | some r =>
      { rootCause := r.root_cause,
        confidence := r.confidence,
        reasoning := r.reasoning,
        timeline := some (r.timeline.map fun t =>
          { timestamp := parseTimestamp t.timestamp now, event := t.event, details := t.details }),
        evidence :=
          { logs := some (r.evidence.logs.map fun l =>
              { timestamp := parseTimestamp l.timestamp now, line := l.line,
                container := l.container }),
            events := some (r.evidence.events.map fun e =>
              { type := e.type, reason := e.reason, message := e.message,
                timestamp := parseTimestamp e.timestamp now }) },
        recommendations := some (r.recommendations.map fun rc =>
          { priority := rc.priority, action := rc.action, details := rc.details,
            command := rc.command }) }

/-- The `Analysis` part of `parseAnalysisResponse` (agent.go 197-225): the
surrounding `AnalysisResult` packaging (AlertSummary, CollectedData) does not
depend on the reply text; lines 217-222 are the degraded rewrite. -/
def parseAnalysisResponse (text : String) (now : GoTime) : Analysis :=
  let analysis := extractAndParseJSON text now
  if analysis.rootCause = "" ∧ analysis.reasoning = "" then
    { analysis with
      reasoning := text
      rootCause := "Unable to parse LLM response"
      confidence := "unknown" }
  else analysis

/-! ## Alert label accessors (models/alert.go) and the webhook batch
(handlers.go 144-275)

Alert labels are an association list (first binding wins, as a Go map has
unique keys).  The concurrent fan-out appends exactly one entry to either
`results` or `errors` per alert under a mutex and waits on the WaitGroup
before building the response; the aggregation is order-insensitive in the
counts, and is modelled by a fold in input order.  The Single-Target
Analyzer `AnalyzeAlert` is an explicit function parameter `analyze`. -/

structure Alert where
  labels : List (String × String)
  status : String
  fingerprint : String
deriving DecidableEq, Repr

def lookupLabel (labels : List (String × String)) (key : String) : Option String :=
  match labels.find? (fun p => p.1 = key) with
  | some p => some p.2
  | none => none

def Alert.getNamespace (a : Alert) : String :=
  match lookupLabel a.labels "namespace" with
  | some ns => ns
  | none =>
    match lookupLabel a.labels "kubernetes_namespace" with
    | some ns => ns
    | none => ""

def Alert.getPodName (a : Alert) : String :=
  match lookupLabel a.labels "pod" with
  | some p => p
  | none =>
    match lookupLabel a.labels "pod_name" with
    | some p => p
    | none => ""

def Alert.getSeverity (a : Alert) : String :=
  match lookupLabel a.labels "severity" with
  | some s => s
  | none => "unknown"

def Alert.getAlertName (a : Alert) : String :=
  match lookupLabel a.labels "alertname" with
  | some n => n
  | none => "unknown"

structure CollectedData where
  logLines : Nat
  eventsCount : Nat
  timeRange : String
deriving DecidableEq, Repr

/-- What the webhook handler consumes of `AnalyzeAlert`'s result. -/
structure AnalysisResultM where
  analysis : Analysis
  collectedData : CollectedData
deriving DecidableEq, Repr

/-- `agent.AnalysisRequest` (the lookback is the fixed one-hour default in
the webhook path and is omitted). -/
structure AnalysisRequest where
  alertFingerprint : String
  namespaceName : String
  podName : String
deriving DecidableEq, Repr

structure AlertAnalysisResult where
  fingerprint : String
  alertName : String
  namespaceName : String
  pod : String
  severity : String
  status : String
  analysis : Analysis
  collectedData : CollectedData
deriving DecidableEq, Repr

structure AlertAnalysisError where
  fingerprint : String
  alertName : String
  error : String
deriving DecidableEq, Repr

inductive AlertOutcome where
  | success (r : AlertAnalysisResult) : AlertOutcome
  | failure (e : AlertAnalysisError) : AlertOutcome
deriving DecidableEq, Repr

structure WebhookAnalysisResponse where
  received : Nat
  analyzed : Nat
  failed : Nat
  results : List AlertAnalysisResult
  errors : List AlertAnalysisError
deriving DecidableEq, Repr

/-- The per-alert goroutine body (handlers.go 175-253): label validation,
then the analyzer call; exactly one outcome per alert.  `analyze` stands for
`h.agent.AnalyzeAlert` (an `error` result carries `err.Error()`). -/
def processAlert (analyze : AnalysisRequest → Except String AnalysisResultM)
    (alert : Alert) : AlertOutcome :=
  let namespaceName := alert.getNamespace
  let podName := alert.getPodName
  let alertName := alert.getAlertName
  let severity := alert.getSeverity
  if namespaceName = "" ∨ podName = "" then
    .failure { fingerprint := alert.fingerprint, alertName := alertName,
               error := "missing namespace or pod in alert labels" }
  else
    match analyze { alertFingerprint := alert.fingerprint, namespaceName := namespaceName,
                    podName := podName } with
    | .error e =>
      .failure { fingerprint := alert.fingerprint, alertName := alertName, error := e }
    | .ok r =>
      .success { fingerprint := alert.fingerprint, alertName := alertName,
                 namespaceName := namespaceName, pod := podName, severity := severity,
                 status := alert.status, analysis := r.analysis,
                 collectedData := r.collectedData }

def successesOf (outcomes : List AlertOutcome) : List AlertAnalysisResult :=
  outcomes.filterMap fun o =>
    match o with
    | .success r => some r
    | .failure _ => none

def failuresOf (outcomes : List AlertOutcome) : List AlertAnalysisError :=
  outcomes.filterMap fun o =>
    match o with
    | .success _ => none
    | .failure e => some e

/-- `ReceiveAlertManagerWebhook` (handlers.go 164-266), after payload
binding: fan out over the alerts, wait, then build the response with
`Received = len(alerts)`, `Analyzed = len(results)`, `Failed = len(errors)`. -/
def receiveAlertManagerWebhook (analyze : AnalysisRequest → Except String AnalysisResultM)
    (alerts : List Alert) : WebhookAnalysisResponse :=
  let outcomes := alerts.map (processAlert analyze)
  let results := successesOf outcomes
  let errors := failuresOf outcomes
  { received := alerts.length, analyzed := results.length, failed := errors.length,
    results := results, errors := errors }

/-! ## GetPodInfo (collectors/kubernetes.go 66-89)

The three Kubernetes API interactions (pod get, `GetPodLogs`,
`GetPodEvents`) are passed in as their `Except` results; the pod object and
event records are opaque tokens.  Errors are strings (`err.Error()`). -/

structure PodInfo where
  pod : String
  logs : String
  events : List String
deriving DecidableEq, Repr

/-- `GetPodInfo`: a pod-get failure is fatal (wrapped "failed to get pod:"),
a log-fetch failure substitutes the `fmt.Sprintf("Error fetching logs: %v", err)`
placeholder, an event-fetch failure substitutes an empty (nil) event slice. -/
def GetPodInfo (podResult : Except String String)
    (logsResult : Except String String)
    (eventsResult : Except String (List String)) : Except String PodInfo :=
  match podResult with
  | .error e => .error ("failed to get pod: " ++ e)
  | .ok p =>
    let logs :=
      match logsResult with
      | .ok l => l
      | .error e => "Error fetching logs: " ++ e
    let events :=
      match eventsResult with
      | .ok evs => evs
      | .error _ => []
    .ok { pod := p, logs := logs, events := events }

/-- All timestamp strings carried by a decoded response (timeline, evidence
logs, evidence events) — the strings `extractAndParseJSON` feeds to
`parseTimestamp`. -/
def responseTimestamps (r : RResponse) : List String :=
  r.timeline.map RTimelineE.timestamp ++ r.evidence.logs.map RLogE.timestamp ++
    r.evidence.events.map REventE.timestamp

/-- True when decoding failed outright or every timestamp string the decoded
response carries parses under one of the fixed layouts (so no
`time.Now()` fallback can be taken during conversion). -/
def allResponseTimestampsParse (o : Option RResponse) : Bool :=
  match o with
  | some r =>
    (responseTimestamps r).all fun ts => (firstParse parseTimestampFormats ts.data).isSome
  | none => true

/-! ## Helper lemmas -/

theorem successes_failures_length (outcomes : List AlertOutcome) :
    (successesOf outcomes).length + (failuresOf outcomes).length = outcomes.length := by
  induction outcomes with
  | nil => rfl
  | cons o l ih =>
    cases o with
    | success r =>
      have hs : successesOf (AlertOutcome.success r :: l) = r :: successesOf l := by
        simp [successesOf, List.filterMap_cons]
      have hf : failuresOf (AlertOutcome.success r :: l) = failuresOf l := by
        simp [failuresOf, List.filterMap_cons]
      rw [hs, hf, List.length_cons, List.length_cons]
      omega
    | failure e =>
      have hs : successesOf (AlertOutcome.failure e :: l) = successesOf l := by
        simp [successesOf, List.filterMap_cons]
      have hf : failuresOf (AlertOutcome.failure e :: l) = e :: failuresOf l := by
        simp [failuresOf, List.filterMap_cons]
      rw [hs, hf, List.length_cons, List.length_cons]
      omega

theorem firstParse_all_none (fs : List (List Char → Option GoTime)) (cs : List Char)
    (h : ∀ f ∈ fs, f cs = none) : firstParse fs cs = none := by
  induction fs with
  | nil => rfl
  | cons f fs ih =>
    have h0 : f cs = none := h f (List.mem_cons_self f fs)
    simp only [firstParse, h0]
    exact ih fun g hg => h g (List.mem_cons_of_mem f hg)

theorem firstParse_first (fs : List (List Char → Option GoTime)) (cs : List Char)
    (i : Nat) (t : GoTime) (hi : i < fs.length)
    (hsucc : fs.get ⟨i, hi⟩ cs = some t)
    (hprev : ∀ j (hj : j < i), fs.get ⟨j, Nat.lt_trans hj hi⟩ cs = none) :
    firstParse fs cs = some t := by
  induction fs generalizing i with
  | nil => exact absurd hi (Nat.not_lt_zero i)
  | cons f fs ih =>
    cases i with
    | zero =>
      simp only [List.get] at hsucc
      simp only [firstParse, hsucc]
    | succ k =>
      have h0 : f cs = none := hprev 0 (Nat.succ_pos k)
      simp only [firstParse, h0]
      exact ih k (Nat.lt_of_succ_lt_succ hi) hsucc
        (fun j hj => hprev (j + 1) (Nat.succ_lt_succ hj))

theorem parseTimestamp_eq_of_parses (ts : String) (now now' : GoTime)
    (h : (firstParse parseTimestampFormats ts.data).isSome = true) :
    parseTimestamp ts now = parseTimestamp ts now' := by
  unfold parseTimestamp
  cases hfp : firstParse parseTimestampFormats ts.data with
  | none => rw [hfp] at h; exact absurd h (by simp)
  | some t => rfl

theorem scanStep_braceCount (st : ScanState) (c : Char) :
    (scanStep st c).braceCount = st.braceCount ∨
    (scanStep st c).braceCount = st.braceCount + 1 ∨
    ((scanStep st c).braceCount = st.braceCount - 1 ∧ st.escaped = false ∧
      st.inString = false ∧ c = rbraceC) := by
  unfold scanStep
  split_ifs with h1 h2 h3 h4 h5 h6 <;> simp_all

theorem findMatch_cons (st : ScanState) (c : Char) (cs : List Char)
    (h : (scanStep st c).braceCount ≠ 0) :
    findMatch st (c :: cs) = (findMatch (scanStep st c) cs).map (· + 1) := by
  by_cases h1 : st.escaped = true
  · simp only [findMatch, scanStep, if_pos h1]
  · by_cases h2 : c = backslashC
    · simp only [findMatch, scanStep, if_neg h1, if_pos h2]
    · by_cases h3 : c = quoteC
      · simp only [findMatch, scanStep, if_neg h1, if_neg h2, if_pos h3]
      · by_cases h4 : st.inString = true
        · simp only [findMatch, scanStep, if_neg h1, if_neg h2, if_neg h3, if_pos h4]
        · by_cases h5 : c = lbraceC
          · simp only [findMatch, scanStep, if_neg h1, if_neg h2, if_neg h3, if_neg h4,
              if_pos h5]
          · by_cases h6 : c = rbraceC
            · have h7 : ¬ (st.braceCount - 1 = 0) := by
                intro hz
                apply h
                simp only [scanStep, if_neg h1, if_neg h2, if_neg h3, if_neg h4, if_neg h5,
                  if_pos h6]
                exact hz
              simp only [findMatch, scanStep, if_neg h1, if_neg h2, if_neg h3, if_neg h4,
                if_neg h5, if_pos h6, if_neg h7]
            · simp only [findMatch, scanStep, if_neg h1, if_neg h2, if_neg h3, if_neg h4,
                if_neg h5, if_neg h6]

theorem findMatch_cons_close (st : ScanState) (cs : List Char)
    (h1 : st.escaped = false) (h2 : st.inString = false) (h3 : st.braceCount = 1) :
    findMatch st (rbraceC :: cs) = some 1 := by
  have e1 : rbraceC ≠ backslashC := by decide
  have e2 : rbraceC ≠ quoteC := by decide
  have e3 : rbraceC ≠ lbraceC := by decide
  unfold findMatch
  simp [h1, h2, h3, e1, e2, e3]

theorem foldScan_cons (st : ScanState) (c : Char) (cs : List Char) :
    foldScan st (c :: cs) = foldScan (scanStep st c) cs := rfl

/-- The scan loop returns the least positive `n` at which the brace depth
first returns to zero: if the depth after the first `n` characters is zero
and stays at least one after every shorter prefix, the loop stops exactly
at `n`. -/
theorem findMatch_spec (cs : List Char) : ∀ (st : ScanState) (n : Nat),
    0 < n → n ≤ cs.length →
    (foldScan st (cs.take n)).braceCount = 0 →
    (∀ m, m < n → (foldScan st (cs.take m)).braceCount ≥ 1) →
    findMatch st cs = some n := by
  induction cs with
  | nil =>
    intro st n hpos hlen _ _
    exact absurd (Nat.lt_of_lt_of_le hpos hlen) (by simp)
  | cons c cs ih =>
    intro st n hpos hlen hclose hmin
    have hst : st.braceCount ≥ 1 := by
      have := hmin 0 hpos
      simpa [foldScan] using this
    cases n with
    | zero => exact absurd hpos (by simp)
    | succ k =>
      cases k with
      | zero =>
        have h1 : (scanStep st c).braceCount = 0 := by
          simpa [foldScan] using hclose
        rcases scanStep_braceCount st c with h | h | ⟨hd, he, hi2, hc⟩
        · omega
        · omega
        · have hb1 : st.braceCount = 1 := by omega
          rw [hc]
          exact findMatch_cons_close st cs he hi2 hb1
      | succ k2 =>
        have hnext : (scanStep st c).braceCount ≥ 1 := by
          have := hmin 1 (by omega)
          simpa [foldScan] using this
        rw [findMatch_cons st c cs (by omega)]
        have hrec : findMatch (scanStep st c) cs = some (k2 + 1) := by
          apply ih (scanStep st c) (k2 + 1) (by omega)
          · simpa using hlen
          · simpa [List.take_succ_cons, foldScan_cons] using hclose
          · intro m hm
            have := hmin (m + 1) (by omega)
            simpa [List.take_succ_cons, foldScan_cons] using this
        rw [hrec]
        rfl

theorem dropWhile_to_first_lbrace (pre rest : List Char) (hpre : lbraceC ∉ pre)
    (hhead : rest.head? = some lbraceC) :
    (pre ++ rest).dropWhile (fun c => c ≠ lbraceC) = rest := by
  induction pre with
  | nil =>
    cases rest with
    | nil => exact absurd hhead (by simp)
    | cons a rest' =>
      have ha : a = lbraceC := by simpa using hhead
      subst ha
      simp [List.dropWhile]
  | cons p pre ih =>
    have hp : p ≠ lbraceC := by
      intro h
      exact hpre (by simp [h])
    have hrec := ih (fun h => hpre (List.mem_cons_of_mem p h))
    simpa [List.dropWhile, hp] using hrec

/-! ## Claim theorems -/

/-- Claim C2: for any text whose suffix `rest` starting at the first brace has
a minimal balanced close at position `n` (depth, tracked through string and
escape state, returns to zero for the first time exactly after `n`
characters), `extractJSON` returns exactly that span — the minimal substring
from the first brace of the text through its true matching close brace,
inclusive, regardless of the surrounding prose. -/
theorem extractJSON_returns_first_balanced_span (pre rest : List Char) (n : Nat)
    (hpre : lbraceC ∉ pre) (hhead : rest.head? = some lbraceC)
    (hpos : 0 < n) (hlen : n ≤ rest.length)
    (hclose : (foldScan scanInit (rest.take n)).braceCount = 0)
    (hmin : ∀ m, m < n → 0 < m → (foldScan scanInit (rest.take m)).braceCount ≥ 1) :
    extractJSONList (pre ++ rest) = rest.take n := by
  obtain ⟨rest', rfl⟩ : ∃ rest', rest = lbraceC :: rest' := by
    cases rest with
    | nil => exact absurd hhead (by simp)
    | cons a rest' =>
      have ha : a = lbraceC := by simpa using hhead
      exact ⟨rest', by rw [ha]⟩
  have hn2 : 2 ≤ n := by
    rcases Nat.lt_or_ge n 2 with hlt | hge
    · exfalso
      have hn1 : n = 1 := by omega
      subst hn1
      have h0 : (foldScan scanInit [lbraceC]).braceCount = 0 := by
        simpa [List.take_succ_cons] using hclose
      exact absurd h0 (by decide)
    · exact hge
  have hstep : (scanStep scanInit lbraceC).braceCount = 1 := by decide
  have hrec : findMatch (scanStep scanInit lbraceC) rest' = some (n - 1) := by
    apply findMatch_spec rest' (scanStep scanInit lbraceC) (n - 1) (by omega)
    · have := hlen
      simp only [List.length_cons] at this
      omega
    · have heq : (lbraceC :: rest').take n = lbraceC :: rest'.take (n - 1) := by
        have hsub : n = (n - 1) + 1 := by omega
        conv_lhs => rw [hsub]
        rw [List.take_succ_cons]
      rw [heq, foldScan_cons] at hclose
      exact hclose
    · intro m hm
      have := hmin (m + 1) (by omega) (by omega)
      rw [List.take_succ_cons, foldScan_cons] at this
      exact this
  have hfm : findMatch scanInit (lbraceC :: rest') = some n := by
    rw [findMatch_cons scanInit lbraceC rest' (by omega), hrec]
    have hsub : n - 1 + 1 = n := by omega
    simp [hsub]
  have hdrop : (pre ++ (lbraceC :: rest')).dropWhile (fun c => c ≠ lbraceC) =
      lbraceC :: rest' :=
    dropWhile_to_first_lbrace pre (lbraceC :: rest') hpre hhead
  simp only [extractJSONList, hdrop, hfm]

/-- Claim C2 witness: a JSON object containing an escaped quote, an escaped
backslash and a brace inside a string value, preceded by prose containing an
(unmatched) close brace and followed by trailing text, is extracted exactly. -/
theorem extractJSON_returns_first_balanced_span_witness :
    lbraceC ∉ ("He said \x7d this: ").data ∧
    extractJSONList (("He said \x7d this: ").data ++
        ("\x7b\"m\":\"q\\\"\\\\\x7bin\x7d\",\"n\":\x7b\x7d\x7d more \x7d text").data) =
      ("\x7b\"m\":\"q\\\"\\\\\x7bin\x7d\",\"n\":\x7b\x7d\x7d").data := by
  refine ⟨by decide, ?_⟩
  have h := extractJSON_returns_first_balanced_span ("He said \x7d this: ").data
    ("\x7b\"m\":\"q\\\"\\\\\x7bin\x7d\",\"n\":\x7b\x7d\x7d more \x7d text").data 24
    (by decide) (by decide) (by decide) (by decide) (by decide)
    (by decide)
  rw [h]
  decide

/-- Claim C1 (code bug): on the reply `"No JSON here at all."`, from which
JSON extraction fails, the produced analysis keeps the Go zero values —
rootCause `""` (not the `"Unable to parse LLM response"` sentinel),
confidence `""` (not `"unknown"`), and nil (absent) sequence fields — with
only `reasoning` carrying the raw text.  The rewrite at agent.go 218 cannot
fire because the failure branch of `extractAndParseJSON` already set
`Reasoning` to the non-empty raw text. -/
theorem parse_failure_keeps_empty_root_cause :
    parseAnalysisResponse "No JSON here at all." ⟨2024, 5, 1, 12, 0, 0, 0, 0⟩ =
      { Analysis.zero with reasoning := "No JSON here at all." } ∧
    (parseAnalysisResponse "No JSON here at all." ⟨2024, 5, 1, 12, 0, 0, 0, 0⟩).rootCause ≠
      "Unable to parse LLM response" ∧
    (parseAnalysisResponse "No JSON here at all." ⟨2024, 5, 1, 12, 0, 0, 0, 0⟩).confidence ≠
      "unknown" ∧
    (parseAnalysisResponse "No JSON here at all." ⟨2024, 5, 1, 12, 0, 0, 0, 0⟩).timeline =
      none := by
  refine ⟨by decide, by decide, by decide, by decide⟩

/-- Claim C3: for every analyzer behaviour and every input alert list, the
batch response satisfies `received = len(alerts)` and
`analyzed + failed = received`, where `analyzed` counts the success outcomes
and `failed` the failure outcomes, each alert contributing exactly one
outcome. -/
theorem receiveWebhook_counts_invariant
    (analyze : AnalysisRequest → Except String AnalysisResultM) (alerts : List Alert) :
    (receiveAlertManagerWebhook analyze alerts).received = alerts.length ∧
    (receiveAlertManagerWebhook analyze alerts).analyzed +
        (receiveAlertManagerWebhook analyze alerts).failed =
      (receiveAlertManagerWebhook analyze alerts).received ∧
    (receiveAlertManagerWebhook analyze alerts).analyzed =
      (successesOf (alerts.map (processAlert analyze))).length ∧
    (receiveAlertManagerWebhook analyze alerts).failed =
      (failuresOf (alerts.map (processAlert analyze))).length := by
  refine ⟨rfl, ?_, rfl, rfl⟩
  show (successesOf (alerts.map (processAlert analyze))).length +
      (failuresOf (alerts.map (processAlert analyze))).length = alerts.length
  rw [successes_failures_length, List.length_map]

/-- Claim C4 counterexample: in the input `{\} }` the close brace immediately
following a backslash outside any string is NOT processed as a structural
token — the code's scan skips it as escaped and returns the five-character
span, while a scan following the claimed rule (escape only inside strings,
`specExtractJSONList`) would stop at the three-character span. -/
theorem escaped_brace_outside_string_cex :
    extractJSONList [lbraceC, backslashC, rbraceC, spaceC, rbraceC] =
      [lbraceC, backslashC, rbraceC, spaceC, rbraceC] ∧
    specExtractJSONList [lbraceC, backslashC, rbraceC, spaceC, rbraceC] =
      [lbraceC, backslashC, rbraceC] ∧
    extractJSONList [lbraceC, backslashC, rbraceC, spaceC, rbraceC] ≠
      specExtractJSONList [lbraceC, backslashC, rbraceC, spaceC, rbraceC] := by
  refine ⟨by decide, by decide, by decide⟩

/-- Claim C4 amended: in the extractJSON scan a backslash sets the
escape-pending flag unconditionally — outside strings as well — so a `{` or
`}` (indeed any character) immediately following such a backslash is consumed
as escaped and leaves the brace depth and string state unchanged. -/
theorem backslash_outside_string_sets_escape (st : ScanState) (c : Char)
    (h : st.escaped = false) :
    (scanStep st backslashC).escaped = true ∧
    (scanStep (scanStep st backslashC) c).braceCount = st.braceCount ∧
    (scanStep (scanStep st backslashC) c).inString = st.inString := by
  refine ⟨?_, ?_, ?_⟩ <;> simp [scanStep, h]

/-- Claim C4 amended, witness at the initial scan state and a close brace. -/
theorem backslash_outside_string_sets_escape_witness :
    (scanStep scanInit backslashC).escaped = true ∧
    (scanStep (scanStep scanInit backslashC) rbraceC).braceCount = scanInit.braceCount ∧
    (scanStep (scanStep scanInit backslashC) rbraceC).inString = scanInit.inString :=
  backslash_outside_string_sets_escape scanInit rbraceC (by decide)

/-- Claim C5: whenever extraction finds a balanced span but the span fails to
decode against the response schema (`json.Unmarshal` errors), normalization
still returns (it is a total function) an analysis whose reasoning is the
original full raw reply text — not the extracted malformed fragment — with
all other fields at their zero values. -/
theorem decode_failure_reasoning_is_raw_text (text : String) (now : GoTime)
    (h1 : extractJSON text ≠ "") (h2 : unmarshalResponse (extractJSON text) = none) :
    parseAnalysisResponse text now = { Analysis.zero with reasoning := text } := by
  have htext : text ≠ "" := by
    intro h
    apply h1
    rw [h]
    rfl
  have hx : extractAndParseJSON text now = { Analysis.zero with reasoning := text } := by
    unfold extractAndParseJSON
    rw [if_neg h1, h2]
  unfold parseAnalysisResponse
  rw [hx]
  have hcond : ¬ (({ Analysis.zero with reasoning := text } : Analysis).rootCause = "" ∧
      ({ Analysis.zero with reasoning := text } : Analysis).reasoning = "") := by
    intro hc
    exact htext hc.2
  rw [if_neg hcond]

/-- Claim C5 witness: the reply `x {"a":} y` has a balanced span `{"a":}`
that is not valid JSON; the resulting analysis carries the whole reply in
`reasoning`. -/
theorem decode_failure_reasoning_is_raw_text_witness :
    extractJSON "x \x7b\"a\":\x7d y" ≠ "" ∧
    unmarshalResponse (extractJSON "x \x7b\"a\":\x7d y") = none ∧
    parseAnalysisResponse "x \x7b\"a\":\x7d y" ⟨2024, 5, 1, 12, 0, 0, 0, 0⟩ =
      { Analysis.zero with reasoning := "x \x7b\"a\":\x7d y" } :=
  ⟨by decide, by decide,
    decode_failure_reasoning_is_raw_text "x \x7b\"a\":\x7d y" ⟨2024, 5, 1, 12, 0, 0, 0, 0⟩
      (by decide) (by decide)⟩

/-- Claim C6 counterexample: normalizing the reply `{"timeline":[{}]}` at two
different wall-clock instants yields different reports — the entry's missing
timestamp falls back to `time.Now()`, so normalization is not idempotent
across calls. -/
theorem normalize_not_idempotent_cex :
    parseAnalysisResponse "\x7b\"timeline\":[\x7b\x7d]\x7d" ⟨2024, 5, 1, 12, 0, 0, 0, 0⟩ ≠
      parseAnalysisResponse "\x7b\"timeline\":[\x7b\x7d]\x7d" ⟨2025, 5, 1, 12, 0, 0, 0, 0⟩ := by
  decide

/-- Claim C6 amended: normalizing the same reply twice yields identical
reports provided no current-time fallback is taken — i.e. whenever
extraction or decoding fails, or every timestamp string in the decoded
response parses under one of the fixed layouts, the result is independent of
the wall clock. -/
theorem normalize_deterministic_when_timestamps_parse (text : String) (now now' : GoTime)
    (h : allResponseTimestampsParse (unmarshalResponse (extractJSON text)) = true) :
    parseAnalysisResponse text now = parseAnalysisResponse text now' := by
  have hx : extractAndParseJSON text now = extractAndParseJSON text now' := by
    unfold extractAndParseJSON
    by_cases he : extractJSON text = ""
    · rw [if_pos he, if_pos he]
    · rw [if_neg he, if_neg he]
      cases hu : unmarshalResponse (extractJSON text) with
      | none => rfl
      | some r =>
        rw [hu] at h
        simp only [allResponseTimestampsParse, List.all_eq_true] at h
        have hmemT : ∀ t ∈ r.timeline,
            (firstParse parseTimestampFormats t.timestamp.data).isSome = true := by
          intro t htl
          refine h t.timestamp ?_

          unfold responseTimestamps
          exact List.mem_append_left _
            (List.mem_append_left _ (List.mem_map_of_mem RTimelineE.timestamp htl))
        have hmemL : ∀ l ∈ r.evidence.logs,
            (firstParse parseTimestampFormats l.timestamp.data).isSome = true := by
          intro l hl
          refine h l.timestamp ?_
          unfold responseTimestamps
          exact List.mem_append_left _
            (List.mem_append_right _ (List.mem_map_of_mem RLogE.timestamp hl))
        have hmemE : ∀ e ∈ r.evidence.events,
            (firstParse parseTimestampFormats e.timestamp.data).isSome = true := by
          intro e hev
          refine h e.timestamp ?_
          unfold responseTimestamps
          exact List.mem_append_right _ (List.mem_map_of_mem REventE.timestamp hev)
        have ht : (r.timeline.map fun t =>
              ({ timestamp := parseTimestamp t.timestamp now, event := t.event,
                 details := t.details } : TimelineEvent)) =
            r.timeline.map fun t =>
              ({ timestamp := parseTimestamp t.timestamp now', event := t.event,
                 details := t.details } : TimelineEvent) :=
          List.map_congr_left fun t htl => by
            rw [parseTimestamp_eq_of_parses t.timestamp now now' (hmemT t htl)]
        have hl : (r.evidence.logs.map fun l =>
              ({ timestamp := parseTimestamp l.timestamp now, line := l.line,
                 container := l.container } : LogEntry)) =
            r.evidence.logs.map fun l =>
              ({ timestamp := parseTimestamp l.timestamp now', line := l.line,
                 container := l.container } : LogEntry) :=
          List.map_congr_left fun l hlg => by
            rw [parseTimestamp_eq_of_parses l.timestamp now now' (hmemL l hlg)]
        have hev : (r.evidence.events.map fun e =>
              ({ type := e.type, reason := e.reason, message := e.message,
                 timestamp := parseTimestamp e.timestamp now } : EventEntry)) =
            r.evidence.events.map fun e =>
              ({ type := e.type, reason := e.reason, message := e.message,
                 timestamp := parseTimestamp e.timestamp now' } : EventEntry) :=
          List.map_congr_left fun e hevm => by
            rw [parseTimestamp_eq_of_parses e.timestamp now now' (hmemE e hevm)]
        simp only [ht, hl, hev]
  unfold parseAnalysisResponse
  rw [hx]

/-- Claim C6 amended, witness: a reply whose only timestamp is `15:04:05`
(parsed by the bare time-of-day layout) normalizes identically at two
different wall-clock instants. -/
theorem normalize_deterministic_when_timestamps_parse_witness :
    parseAnalysisResponse "\x7b\"timeline\":[\x7b\"timestamp\":\"15:04:05\"\x7d]\x7d"
        ⟨2024, 5, 1, 12, 0, 0, 0, 0⟩ =
      parseAnalysisResponse "\x7b\"timeline\":[\x7b\"timestamp\":\"15:04:05\"\x7d]\x7d"
        ⟨2025, 5, 1, 12, 0, 0, 0, 0⟩ :=
  normalize_deterministic_when_timestamps_parse
    "\x7b\"timeline\":[\x7b\"timestamp\":\"15:04:05\"\x7d]\x7d"
    ⟨2024, 5, 1, 12, 0, 0, 0, 0⟩ ⟨2025, 5, 1, 12, 0, 0, 0, 0⟩ (by decide)

/-- Claim C7: `parseTimestamp` tries the five fixed layouts in their fixed
order and returns the first success; if every layout fails it returns the
current wall-clock time; and `"15:04:05"` is rejected by the four
date-bearing layouts, parsed by the bare time-of-day layout, and therefore
never falls back to the current time. -/
theorem parseTimestamp_first_format_wins :
    (∀ (ts : String) (now : GoTime) (i : Nat) (t : GoTime)
        (hi : i < parseTimestampFormats.length),
      parseTimestampFormats.get ⟨i, hi⟩ ts.data = some t →
      (∀ j (hj : j < i), parseTimestampFormats.get ⟨j, Nat.lt_trans hj hi⟩ ts.data = none) →
      parseTimestamp ts now = t) ∧
    (∀ (ts : String) (now : GoTime),
      (∀ f ∈ parseTimestampFormats, f ts.data = none) → parseTimestamp ts now = now) ∧
    goParseRFC3339 "15:04:05".data = none ∧
    goParseRFC3339Nano "15:04:05".data = none ∧
    goParseDateTimeT "15:04:05".data = none ∧
    goParseDateTimeSpace "15:04:05".data = none ∧
    goParseBareTime "15:04:05".data = some ⟨0, 1, 1, 15, 4, 5, 0, 0⟩ ∧
    (∀ now : GoTime, parseTimestamp "15:04:05" now = ⟨0, 1, 1, 15, 4, 5, 0, 0⟩) := by
  refine ⟨?_, ?_, by decide, by decide, by decide, by decide, by decide, ?_⟩
  · intro ts now i t hi hsucc hprev
    unfold parseTimestamp
    rw [firstParse_first parseTimestampFormats ts.data i t hi hsucc hprev]
    rfl
  · intro ts now h
    unfold parseTimestamp
    rw [firstParse_all_none parseTimestampFormats ts.data h]
    rfl
  · intro now
    unfold parseTimestamp
    have hfp : firstParse parseTimestampFormats "15:04:05".data =
        some ⟨0, 1, 1, 15, 4, 5, 0, 0⟩ := by decide
    rw [hfp]
    rfl

/-- Claim C7 witness: `"15:04:05"` parses (independently of the clock) and a
non-timestamp string falls back to the supplied current time. -/
theorem parseTimestamp_first_format_wins_witness :
    parseTimestamp "15:04:05" ⟨2020, 1, 1, 0, 0, 0, 0, 0⟩ = ⟨0, 1, 1, 15, 4, 5, 0, 0⟩ ∧
    parseTimestamp "not a timestamp" ⟨2020, 1, 1, 0, 0, 0, 0, 0⟩ =
      ⟨2020, 1, 1, 0, 0, 0, 0, 0⟩ :=
  ⟨parseTimestamp_first_format_wins.2.2.2.2.2.2.2 ⟨2020, 1, 1, 0, 0, 0, 0, 0⟩,
    parseTimestamp_first_format_wins.2.1 "not a timestamp" ⟨2020, 1, 1, 0, 0, 0, 0, 0⟩
      (by decide)⟩

/-- Claim C8: an alert whose labels yield no namespace or no pod name is
recorded as a Failure outcome with reason exactly
`"missing namespace or pod in alert labels"`; the outcome is the same for
every analyzer (so the Single-Target Analyzer is never invoked for it), and
in any batch containing the alert that failure record appears among the
response errors. -/
theorem invalid_alert_missing_labels_failure (alert : Alert)
    (h : alert.getNamespace = "" ∨ alert.getPodName = "") :
    (∀ analyze, processAlert analyze alert =
      .failure { fingerprint := alert.fingerprint, alertName := alert.getAlertName,
                 error := "missing namespace or pod in alert labels" }) ∧
    (∀ analyze analyze', processAlert analyze alert = processAlert analyze' alert) ∧
    (∀ analyze alerts, alert ∈ alerts →
      ({ fingerprint := alert.fingerprint, alertName := alert.getAlertName,
         error := "missing namespace or pod in alert labels" } : AlertAnalysisError) ∈
        (receiveAlertManagerWebhook analyze alerts).errors) := by
  have hfail : ∀ analyze, processAlert analyze alert =
      .failure { fingerprint := alert.fingerprint, alertName := alert.getAlertName,
                 error := "missing namespace or pod in alert labels" } := by
    intro analyze
    simp only [processAlert]
    rw [if_pos h]
  refine ⟨hfail, fun analyze analyze' => by rw [hfail analyze, hfail analyze'], ?_⟩
  intro analyze alerts hmem
  show _ ∈ failuresOf (alerts.map (processAlert analyze))
  apply List.mem_filterMap.2
  refine ⟨processAlert analyze alert, List.mem_map_of_mem _ hmem, ?_⟩
  rw [hfail analyze]

/-- Claim C8 witness: an alert with a namespace label but no pod label fails
with the exact reason, under an arbitrary analyzer. -/
theorem invalid_alert_missing_labels_failure_witness :
    (⟨[("namespace", "prod"), ("alertname", "HighCPU")], "firing", "fp1"⟩ : Alert).getPodName
        = "" ∧
    processAlert (fun _ => .error "boom")
        ⟨[("namespace", "prod"), ("alertname", "HighCPU")], "firing", "fp1"⟩ =
      .failure { fingerprint := "fp1", alertName := "HighCPU",
                 error := "missing namespace or pod in alert labels" } :=
  ⟨by decide,
    (invalid_alert_missing_labels_failure
      ⟨[("namespace", "prod"), ("alertname", "HighCPU")], "firing", "fp1"⟩
      (Or.inr (by decide))).1 (fun _ => .error "boom")⟩

/-- Claim C9: in `GetPodInfo`, a pod-get failure is fatal (the wrapped error
is returned), while with a resolved pod the collection always succeeds: a
log-fetch failure substitutes the `"Error fetching logs: ..."` placeholder
string and an event-fetch failure substitutes an empty event sequence. -/
theorem getPodInfo_partial_failure_handling :
    (∀ (e : String) (logsResult : Except String String)
        (eventsResult : Except String (List String)),
      GetPodInfo (.error e) logsResult eventsResult =
        .error ("failed to get pod: " ++ e)) ∧
    (∀ (p : String) (logsResult : Except String String)
        (eventsResult : Except String (List String)),
      GetPodInfo (.ok p) logsResult eventsResult =
        .ok { pod := p,
              logs :=
                match logsResult with
                | .ok l => l
                | .error e => "Error fetching logs: " ++ e,
              events :=
                match eventsResult with
                | .ok evs => evs
                | .error _ => [] }) := by
  constructor
  · intro e logsResult eventsResult
    rfl
  · intro p logsResult eventsResult
    rfl

/-- Claim C10: the degraded rewrite of `parseAnalysisResponse` fires exactly
when the parsed analysis has both an empty rootCause and an empty reasoning;
when it fires it overwrites reasoning with the entire raw reply, rootCause
with the sentinel and confidence with `"unknown"` (discarding any decoded
confidence), leaving all other decoded fields in place; otherwise the parsed
analysis is returned unchanged. -/
theorem degraded_rewrite_fires_iff_both_empty (text : String) (now : GoTime) :
    ((extractAndParseJSON text now).rootCause = "" →
      (extractAndParseJSON text now).reasoning = "" →
      parseAnalysisResponse text now =
        { extractAndParseJSON text now with
          reasoning := text
          rootCause := "Unable to parse LLM response"
          confidence := "unknown" }) ∧
    (¬ ((extractAndParseJSON text now).rootCause = "" ∧
        (extractAndParseJSON text now).reasoning = "") →
      parseAnalysisResponse text now = extractAndParseJSON text now) := by
  constructor
  · intro h1 h2
    simp only [parseAnalysisResponse]
    rw [if_pos ⟨h1, h2⟩]
  · intro h
    simp only [parseAnalysisResponse]
    rw [if_neg h]

/-- Claim C10 witness: the reply `{"confidence":"high","timeline":[{}]}`
decodes successfully with empty root_cause and reasoning; the rewrite fires,
discards the decoded `"high"` confidence, overwrites reasoning with the full
raw reply, and keeps the decoded timeline. -/
theorem degraded_rewrite_fires_iff_both_empty_witness :
    (extractAndParseJSON "\x7b\"confidence\":\"high\",\"timeline\":[\x7b\x7d]\x7d"
        ⟨2024, 5, 1, 12, 0, 0, 0, 0⟩).confidence = "high" ∧
    (extractAndParseJSON "\x7b\"confidence\":\"high\",\"timeline\":[\x7b\x7d]\x7d"
        ⟨2024, 5, 1, 12, 0, 0, 0, 0⟩).timeline =
      some [⟨⟨2024, 5, 1, 12, 0, 0, 0, 0⟩, "", ""⟩] ∧
    parseAnalysisResponse "\x7b\"confidence\":\"high\",\"timeline\":[\x7b\x7d]\x7d"
        ⟨2024, 5, 1, 12, 0, 0, 0, 0⟩ =
      { extractAndParseJSON "\x7b\"confidence\":\"high\",\"timeline\":[\x7b\x7d]\x7d"
          ⟨2024, 5, 1, 12, 0, 0, 0, 0⟩ with
        reasoning := "\x7b\"confidence\":\"high\",\"timeline\":[\x7b\x7d]\x7d"
        rootCause := "Unable to parse LLM response"
        confidence := "unknown" } :=
  ⟨by decide, by decide,
    (degraded_rewrite_fires_iff_both_empty
      "\x7b\"confidence\":\"high\",\"timeline\":[\x7b\x7d]\x7d"
      ⟨2024, 5, 1, 12, 0, 0, 0, 0⟩).1 (by decide) (by decide)⟩

end MicroSre
